import Mathlib

/-!
Shallow embedding of the grid normalization and weighted aggregation pipeline
of `src/tutorials/02_temperature/02_temperature.py` (repository
`nicrie/sketchbook-earth`), together with theorems settling the frozen claims
about its specification.

The embedding models:
* calendar arithmetic (`pandas` day counts, `days_in_month`, month snapping);
* `coordinate_is_monthly` and `streamline_coords` (coordinate normalizer);
* `weighted_spatial_average` (area/land-mask weighted spatial mean, mirroring
  `xarray`'s `weighted(...).mean` zero-fill numerator / masked denominator);
* `weighted_annual_average` (day-count weighted annual resampling with its
  `assert_allclose(denominator, 1)` completeness check);
* `weighted_seasonal_average` plus the season re-labelling and the hardcoded
  invalidation of the DJF entries at years 1950 and 2023;
* the monthly climatology and anomaly computation over the fixed reference
  period 1991-2020.

Missing values ("no data", `NaN` in the source) are represented by `Option`;
grid values and coordinates are rationals except where the source genuinely
computes with `cos` (spatial area weights), which is modelled over `ℝ`.
-/

/-! ## Calendar arithmetic (mirroring pandas timestamps and day counts) -/

/-- Gregorian leap-year rule, as used by pandas day counting. -/
def isLeap (y : Nat) : Bool :=
  (y % 4 == 0 && y % 100 != 0) || y % 400 == 0

/-- Number of days of month `m` (1..12) in year `y`; pandas `dt.days_in_month`. -/
def daysInMonth (y : Nat) (m : Nat) : Nat :=
  if m = 2 then (if isLeap y then 29 else 28)
  else if m = 4 ∨ m = 6 ∨ m = 9 ∨ m = 11 then 30
  else 31

/-- A calendar date (proleptic Gregorian), year-month-day.  Timestamps in the
pipeline carry no sub-day component (monthly or daily data at midnight). -/
structure Date where
  year : Nat
  month : Nat
  day : Nat
deriving DecidableEq, Repr

/-- Number of leap years in `[0, y)` (proleptic Gregorian, year 0 leap). -/
def numLeapBefore (y : Nat) : Nat :=
  (y + 3) / 4 - (y + 99) / 100 + (y + 399) / 400

/-- Days in all years before year `y`. -/
def daysBeforeYear (y : Nat) : Nat :=
  365 * y + numLeapBefore y

/-- Days in the months of year `y` strictly before month `m`. -/
def daysBeforeMonth (y : Nat) (m : Nat) : Nat :=
  ((List.range (m - 1)).map (fun i => daysInMonth y (i + 1))).sum

/-- Absolute day number of a date; differences of `ordinal`s are the day
differences pandas computes via `pd.to_timedelta(...).days`. -/
def ordinal (d : Date) : Nat :=
  daysBeforeYear d.year + daysBeforeMonth d.year d.month + (d.day - 1)

/-- Pandas `to_period("M").to_timestamp()`: snap a timestamp to day 1 of its month. -/
def firstOfMonth (d : Date) : Date :=
  ⟨d.year, d.month, 1⟩

/-- Day differences between consecutive timestamps (`np.diff` in days). -/
def dateDiffs : List Date → List Int
  | [] => []
  | [_] => []
  | a :: b :: rest => ((ordinal b : Int) - (ordinal a : Int)) :: dateDiffs (b :: rest)

/-- Function `coordinate_is_monthly` (source lines 79-88): `True` iff every consecutive
time difference is between 28 and 31 days. -/
def coordinate_is_monthly (times : List Date) : Bool :=
  (dateDiffs times).all (fun d => decide (28 ≤ d) && decide (d ≤ 31))

/-! ## The DataArray model and `streamline_coords` -/

/-- A labelled array as consumed by `streamline_coords`: an optional time axis,
latitude and longitude axes, raw-name flags (`latitude`/`longitude` vs. the
canonical `lat`/`lon`), and data laid out as time-slice × lat-row × lon-entry.
A field without a time coordinate has a single data slice. -/
structure DataArray where
  time : Option (List Date)
  latRaw : Bool
  lonRaw : Bool
  lat : List ℚ
  lon : List ℚ
  data : List (List (List (Option ℚ)))
deriving DecidableEq, Repr

/-- Python's `%` on rationals: result in `[0, n)` for `n > 0`. -/
def pymod (x n : ℚ) : ℚ :=
  x - n * (⌊x / n⌋ : ℤ)

/-- The longitude remap `((lon + 180) % 360) - 180` (source line 119). -/
def remapLon (l : ℚ) : ℚ :=
  pymod (l + 180) 360 - 180

/-- Stable comparison of axis positions by coordinate value then position:
this is the sort order `np.lexsort`/`sortby` realizes (stable ascending). -/
def idxLe (keys : List ℚ) (i j : Nat) : Prop :=
  keys.getD i 0 < keys.getD j 0 ∨ (keys.getD i 0 = keys.getD j 0 ∧ i ≤ j)

instance (keys : List ℚ) : DecidableRel (idxLe keys) := fun i j => by
  unfold idxLe; infer_instance

instance (keys : List ℚ) : IsTotal Nat (idxLe keys) where
  total i j := by
    rcases lt_trichotomy (keys.getD i 0) (keys.getD j 0) with h | h | h
    · exact Or.inl (Or.inl h)
    · rcases Nat.le_total i j with hij | hij
      · exact Or.inl (Or.inr ⟨h, hij⟩)
      · exact Or.inr (Or.inr ⟨h.symm, hij⟩)
    · exact Or.inr (Or.inl h)

instance (keys : List ℚ) : IsTrans Nat (idxLe keys) where
  trans i j k hij hjk := by
    rcases hij with h1 | ⟨e1, l1⟩
    · rcases hjk with h2 | ⟨e2, _⟩
      · exact Or.inl (h1.trans h2)
      · exact Or.inl (e2 ▸ h1)
    · rcases hjk with h2 | ⟨e2, l2⟩
      · exact Or.inl (e1 ▸ h2)
      · exact Or.inr ⟨e1.trans e2, l1.trans l2⟩

/-- The stable argsort of a coordinate axis (`np.argsort`, stable as used by
`sortby`): indices `0..n-1` sorted by key value, ties by position. -/
def argsort (keys : List ℚ) : List Nat :=
  List.insertionSort (idxLe keys) (List.range keys.length)

/-- Reindex a list by a permutation of positions (`take` along an axis). -/
def applyPerm (d : α) (perm : List Nat) (xs : List α) : List α :=
  perm.map (fun i => xs.getD i d)

/-- Operation `da.sortby("lat")`: reorder the latitude axis ascending and permute the
latitude dimension of every time slice accordingly. -/
def sortbyLat (da : DataArray) : DataArray :=
  let perm := argsort da.lat
  { da with
    lat := applyPerm 0 perm da.lat
    data := da.data.map (fun sl => applyPerm [] perm sl) }

/-- Operation `da.sortby("lon")`: reorder the longitude axis ascending and permute the
longitude dimension of every row accordingly. -/
def sortbyLon (da : DataArray) : DataArray :=
  let perm := argsort da.lon
  { da with
    lon := applyPerm 0 perm da.lon
    data := da.data.map (fun sl => sl.map (fun row => applyPerm none perm row)) }

/-- Source lines 100-103: if a time coordinate exists and is monthly, assign
the snapped (first-of-month) timestamps.  In the source this assignment
(`da.coords["time"] = ...`) mutates the argument in place, so this function
is both the first pipeline step and the net effect of `streamline_coords`
on its input object. -/
def streamlineTime (da : DataArray) : DataArray :=
  match da.time with
  | none => da
  | some ts =>
    if coordinate_is_monthly ts then { da with time := some (ts.map firstOfMonth) }
    else da

/-- Minimum of a list (`DataArray.min`): `none` on an empty axis. -/
def lmin : List ℚ → Option ℚ
  | [] => none
  | x :: xs =>
    match lmin xs with
    | none => some x
    | some m => some (min x m)

/-- Maximum of a list (`DataArray.max`): `none` on an empty axis. -/
def lmax : List ℚ → Option ℚ
  | [] => none
  | x :: xs =>
    match lmax xs with
    | none => some x
    | some m => some (max x m)

/-- Function `streamline_coords` (source lines 91-122): snap monthly time stamps to the
first of the month, canonicalize the spatial coordinate names, sort by lat
then lon, and - when the longitude range leaves `[-180, 180]` - remap
longitudes by `((lon + 180) % 360) - 180` and re-sort. -/
def streamline_coords (da : DataArray) : DataArray :=
  let da1 := streamlineTime da
  let da2 := { da1 with latRaw := false, lonRaw := false }
  let da3 := sortbyLon (sortbyLat da2)
  match lmin da3.lon, lmax da3.lon with
  | some mn, some mx =>
    if mn < -180 ∨ mx > 180 then
      sortbyLon { da3 with lon := da3.lon.map remapLon }
    else da3
  | _, _ => da3

/-! ## Monthly series and the annual resampler -/

/-- A monthly time key `(year, month)`; monthly data is snapped to day 1, so
the day component carries no information for resampling. -/
abbrev YM := Nat × Nat

/-- A monthly time series of a single coordinate/grid cell: time-ordered
entries of `(year, month)` against an optional value (`none` = NaN). -/
abbrev Series := List (YM × Option ℚ)

/-- Pandas `days_in_month` as a rational weight ingredient. -/
def dimQ (y m : Nat) : ℚ :=
  (daysInMonth y m : ℚ)

/-- The entries of a series falling in calendar year `y`
(a `resample(time="AS")` bin). -/
def yearEntries (s : Series) (y : Nat) : Series :=
  s.filter (fun e => e.1.1 == y)

/-- Sum `days_in_month.groupby("time.year").sum()` for year `y`. -/
def yearDaySum (s : Series) (y : Nat) : ℚ :=
  ((yearEntries s y).map (fun e => dimQ e.1.1 e.1.2)).sum

/-- The per-entry weight of `weighted_annual_average`:
`days_in_month.groupby("time.year") / days_in_month.groupby("time.year").sum()`
- the day count divided by the total day count of the months PRESENT in that
entry's year. -/
def annualWeight (s : Series) (e : YM × Option ℚ) : ℚ :=
  dimQ e.1.1 e.1.2 / yearDaySum s e.1.1

/-- Denominator `weights.resample({"time": "AS"}).sum()`: the denominator for year `y`. -/
def yearDen (s : Series) (y : Nat) : ℚ :=
  ((yearEntries s y).map (annualWeight s)).sum

/-- Numerator `(da * weights).resample({"time": "AS"}).sum(skipna=False)`: the numerator
for year `y`; `none` as soon as one of the year's present values is missing,
and `some 0` for a bin with no entries (an empty numpy sum is `0`). -/
def yearNum (s : Series) (y : Nat) : Option ℚ :=
  let es := yearEntries s y
  if es.all (fun e => e.2.isSome) then
    some ((es.map (fun e => e.2.getD 0 * annualWeight s e)).sum)
  else none

/-- The calendar years spanned by the series' time axis: `resample("AS")`
creates one bin per year from the first to the last timestamp. -/
def yearsSpan (s : Series) : List Nat :=
  match s with
  | [] => []
  | e :: rest =>
    let ys := (e :: rest).map (fun x => x.1.1)
    let y0 := ys.foldl Nat.min e.1.1
    let y1 := ys.foldl Nat.max e.1.1
    (List.range (y1 + 1 - y0)).map (fun i => y0 + i)

/-- Check `np.testing.assert_allclose(denominator, 1)` with its default relative
tolerance `1e-7`: `True` iff `x - 1` lies within `±1e-7`. -/
def allcloseOne (x : ℚ) : Bool :=
  decide (-(1 / 10000000) ≤ x - 1) && decide (x - 1 ≤ 1 / 10000000)

/-- Function `weighted_annual_average` (source lines 411-420): day-count weights
normalized per year over the months present, numerator summed with
`skipna=False`, an `assert_allclose(denominator, 1)` completeness check
(modelled by returning `none` for the whole call when the assertion fails,
i.e. when the `AssertionError` aborts), and the final division.  On success
the result maps each spanned year to its optional annual value. -/
def weighted_annual_average (s : Series) : Option (List (Nat × Option ℚ)) :=
  let ys := yearsSpan s
  if ys.all (fun y => allcloseOne (yearDen s y)) then
    some (ys.map (fun y => (y, (yearNum s y).map (fun n => n / yearDen s y))))
  else none

/-! ## The seasonal resampler and season re-labelling -/

/-- The four meteorological seasons, as named by `pandas` `dt.season`. -/
inductive Season
  | DJF
  | MAM
  | JJA
  | SON
deriving DecidableEq, Repr

/-- Pandas `dt.season` of a calendar month. -/
def seasonOfMonth (m : Nat) : Season :=
  if m = 12 ∨ m ≤ 2 then Season.DJF
  else if m ≤ 5 then Season.MAM
  else if m ≤ 8 then Season.JJA
  else Season.SON

/-- Absolute month number of `(year, month)`: `year*12 + (month-1)`. -/
def absMonth (y m : Nat) : Nat :=
  y * 12 + (m - 1)

/-- The `(year, month)` of an absolute month number. -/
def ymOf (a : Nat) : YM :=
  (a / 12, a % 12 + 1)

/-- The `QS-DEC` quarter start containing absolute month `a`: the largest
month `≤ a` among December, March, June, September (absolute months that are
`2 mod 3`).  Sound for `a ≥ 2`, i.e. for any date from March of year 0 on. -/
def qstartAbs (a : Nat) : Nat :=
  a - (a + 1) % 3

/-- Function `weighted_seasonal_average` (source lines 708-716): resample to quarters
starting December (`QS-DEC`), numerator `(ds * month_length).sum(skipna=False)`
per quarter, denominator `month_length.sum()` per quarter, and their ratio
(`0/0` on an empty quarter is NaN, i.e. `none`).  Bins run from the quarter of
the first timestamp to the quarter of the last, keyed by quarter start. -/
def weighted_seasonal_average (s : Series) : List (YM × Option ℚ) :=
  match s with
  | [] => []
  | e :: rest =>
    let as_ := (e :: rest).map (fun x => absMonth x.1.1 x.1.2)
    let a0 := as_.foldl Nat.min (absMonth e.1.1 e.1.2)
    let a1 := as_.foldl Nat.max (absMonth e.1.1 e.1.2)
    let q0 := qstartAbs a0
    let nbins := (qstartAbs a1 - q0) / 3 + 1
    (List.range nbins).map (fun i =>
      let q := q0 + 3 * i
      let es := s.filter (fun x => qstartAbs (absMonth x.1.1 x.1.2) == q)
      let sw : ℚ := (es.map (fun x => dimQ x.1.1 x.1.2)).sum
      let ws : Option ℚ :=
        if es.all (fun x => x.2.isSome) then
          some ((es.map (fun x => x.2.getD 0 * dimQ x.1.1 x.1.2)).sum)
        else none
      (ymOf q, if sw = 0 then none else ws.map (fun n => n / sw)))

/-- Date shift by `n` days with at most one month of rollover, as used by the
`+ pd.Timedelta(days=31)` re-labelling of quarter-start timestamps (the only
use adds 31 days to a day-1 date, which rolls over exactly one month). -/
def addDays (d : Date) (n : Nat) : Date :=
  let t := d.day + n
  if t ≤ daysInMonth d.year d.month then ⟨d.year, d.month, t⟩
  else if d.month = 12 then ⟨d.year + 1, 1, t - 31⟩
  else ⟨d.year, d.month + 1, t - daysInMonth d.year d.month⟩

/-- Source lines 735-742 applied to one bin key: shift the quarter-start
timestamp by 31 days, then read off `(time.dt.year, time.dt.season)`
(`convert_time_to_year_season`). -/
def shiftConvert (k : YM) : Nat × Season :=
  let d := addDays ⟨k.1, k.2, 1⟩ 31
  (d.year, seasonOfMonth d.month)

/-- The full seasonal pipeline of source lines 732-742: seasonal weighted
averages, the 31-day shift, conversion to `(year, season)` keys, and the
hardcoded invalidation `.loc[dict(season="DJF", year=[1950, 2023])] = np.nan`
which nulls exactly the DJF entries of years 1950 and 2023. -/
def seasonal_pipeline (s : Series) : List ((Nat × Season) × Option ℚ) :=
  (weighted_seasonal_average s).map (fun e =>
    let k := shiftConvert e.1
    (k, if k.2 = Season.DJF ∧ (k.1 = 1950 ∨ k.1 = 2023) then none else e.2))

/-! ## Climatology and anomalies (reference period 1991-2020) -/

/-- Membership of a year in the reference period `slice("1991", "2020")`
(string-sliced on the time axis, hence inclusive of both full years). -/
def inRefPeriod (y : Nat) : Bool :=
  1991 ≤ y && y ≤ 2020

/-- The values observed (present, non-NaN) in calendar month `m` within the
reference period - the group that `sel(REF_PERIOD).groupby("time.month")`
aggregates. -/
def monthValsInRef (s : Series) (m : Nat) : List ℚ :=
  (s.filter (fun e => inRefPeriod e.1.1 && e.1.2 == m)).filterMap (fun e => e.2)

/-- Climatology `sel(REF_PERIOD).groupby("time.month").mean()` (source lines 218 and
391-393): the skip-NaN mean of the month-`m` reference-period values, NaN
(`none`) when no observation exists. -/
def climatology (s : Series) (m : Nat) : Option ℚ :=
  let vs := monthValsInRef s m
  if vs.length = 0 then none
  else some (vs.sum / (vs.length : ℚ))

/-- Anomalies `da.groupby("time.month") - climatology` (source lines 219 and 394):
subtract the matching calendar-month climatology from every value; the result
at a timestamp is defined only when both operands are. -/
def anomalies (s : Series) : Series :=
  s.map (fun e =>
    (e.1, match e.2, climatology s e.1.2 with
      | some v, some c => some (v - c)
      | _, _ => none))

/-! ## The spatial aggregator `weighted_spatial_average` -/

/-- Degrees to radians, `np.deg2rad`. -/
noncomputable def deg2rad (x : ℚ) : ℝ :=
  (x : ℝ) * Real.pi / 180

/-- The cosine-latitude area weight `np.cos(np.deg2rad(lat))` of one latitude. -/
noncomputable def cosWeight (l : ℚ) : ℝ :=
  Real.cos (deg2rad l)

/-- A spatial field (one coordinate per time step dropped after reduction):
lat × lon axes with real-valued data slices per time step. -/
structure SpatialField where
  lat : List ℚ
  lon : List ℚ
  data : List (List (List (Option ℝ)))

/-- A land/sea mask aligned to the same lat × lon axes as the field it is
multiplied with; entries may be missing (`fillna(0)` is applied in the code). -/
structure LandMask where
  lat : List ℚ
  lon : List ℚ
  data : List (List (Option ℝ))

/-- A rectangular region: inclusive lon/lat slices (`REGIONS` of the source;
`.sel` with a slice on a sorted axis keeps both endpoints). -/
structure Region where
  lonLo : ℚ
  lonHi : ℚ
  latLo : ℚ
  latHi : ℚ

/-- The `Global` region of the source's `REGIONS` catalog. -/
def globalRegion : Region :=
  ⟨-180, 180, -90, 90⟩

/-- Keep the entries of `rows` whose axis label passes `p` (`.sel` along one
axis). -/
def filterAxis (p : ℚ → Bool) (axis : List ℚ) (rows : List α) : List α :=
  ((axis.zip rows).filter (fun x => p x.1)).map (fun x => x.2)

/-- Region membership tests for the two axes. -/
def inLat (r : Region) (l : ℚ) : Bool :=
  decide (r.latLo ≤ l) && decide (l ≤ r.latHi)

def inLon (r : Region) (l : ℚ) : Bool :=
  decide (r.lonLo ≤ l) && decide (l ≤ r.lonHi)

/-- Selection `da.sel(**region)` on a spatial field. -/
def selField (da : SpatialField) (r : Region) : SpatialField :=
  { lat := da.lat.filter (inLat r)
    lon := da.lon.filter (inLon r)
    data := da.data.map (fun sl =>
      (filterAxis (inLat r) da.lat sl).map (fun row => filterAxis (inLon r) da.lon row)) }

/-- Selection `land_mask.sel(**region)` on a mask. -/
def selMask (mk : LandMask) (r : Region) : LandMask :=
  { lat := mk.lat.filter (inLat r)
    lon := mk.lon.filter (inLon r)
    data := (filterAxis (inLat r) mk.lat mk.data).map (fun row => filterAxis (inLon r) mk.lon row) }

/-- The weight grid `weighted_spatial_average` builds after region selection:
`np.cos(np.deg2rad(da.lat))` broadcast along lon, multiplied - when a land
mask is supplied - by `land_mask.fillna(0)` cellwise. -/
noncomputable def weightGrid (lat : List ℚ) (lon : List ℚ) (mask : Option LandMask) : List (List ℝ) :=
  match mask with
  | none => lat.map (fun l => lon.map (fun _ => cosWeight l))
  | some mk =>
    (lat.zip mk.data).map (fun lrow => lrow.2.map (fun mv => cosWeight lrow.1 * mv.getD 0))

/-- One time step of `da.weighted(weights).mean(("lat", "lon"))` exactly as
`xarray` computes it: the numerator is `dot(da.fillna(0), weights)` (zero-fill
of missing values), the denominator is `dot(da.notnull(), weights)` with an
exactly-zero denominator replaced by NaN (`sum_of_weights.where(valid)`),
hence a `none` result instead of a division by zero. -/
noncomputable def xrWeightedMean (w : List (List ℝ)) (v : List (List (Option ℝ))) : Option ℝ :=
  let cells := (w.zip v).flatMap (fun p => p.1.zip p.2)
  let num := (cells.map (fun c => c.1 * c.2.getD 0)).sum
  let den := (cells.map (fun c => if c.2.isSome then c.1 else 0)).sum
  if den = 0 then none else some (num / den)

/-- Function `weighted_spatial_average` (source lines 225-245): select the region,
build the cosine-latitude weights, multiply by the zero-filled land mask when
one is supplied, and take the xarray weighted mean over (lat, lon) for every
remaining (time) coordinate. -/
noncomputable def weighted_spatial_average (da : SpatialField) (r : Region) (mask : Option LandMask) : List (Option ℝ) :=
  let da' := selField da r
  let mk' := mask.map (fun mk => selMask mk r)
  let w := weightGrid da'.lat da'.lon mk'
  da'.data.map (fun sl => xrWeightedMean w sl)

/-- Modelled from the spec at claim C4's wording, for comparison with the
source: the same pipeline but with an implicit per-cell weight of `1` plus
the cosine of the cell's latitude in radians. -/
noncomputable def onePlusCosGrid (lat : List ℚ) (lon : List ℚ) : List (List ℝ) :=
  lat.map (fun l => lon.map (fun _ => 1 + cosWeight l))

/-- Modelled from the spec at claim C4's wording: `weighted_spatial_average`
as it would be were the implicit weight `1 + cos(lat)`. -/
noncomputable def weighted_spatial_average_onePlusCos (da : SpatialField) (r : Region) : List (Option ℝ) :=
  let da' := selField da r
  let w := onePlusCosGrid da'.lat da'.lon
  da'.data.map (fun sl => xrWeightedMean w sl)

/-- The masked weighted mean the spec describes: `sum(value * weight)` over
the cells with a defined value, divided by `sum(weight)` over those same
cells. -/
noncomputable def maskedMeanNum (w : List (List ℝ)) (v : List (List (Option ℝ))) : ℝ :=
  (((w.zip v).flatMap (fun p => p.1.zip p.2)).filterMap
    (fun c => c.2.map (fun x => c.1 * x))).sum

noncomputable def maskedMeanDen (w : List (List ℝ)) (v : List (List (Option ℝ))) : ℝ :=
  (((w.zip v).flatMap (fun p => p.1.zip p.2)).filterMap
    (fun c => c.2.map (fun _ => c.1))).sum

/-! ## Helper lemmas about sorting, list extrema and the longitude remap -/

theorem applyPerm_length (d : α) (perm : List Nat) (xs : List α) :
    (applyPerm d perm xs).length = perm.length := by
  simp [applyPerm]

theorem range_map_getD (n : Nat) (xs : List α) (d : α) (h : xs.length = n) :
    (List.range n).map (fun i => xs.getD i d) = xs := by
  subst h
  induction xs with
  | nil => simp
  | cons x t ih =>
    rw [List.length_cons, List.range_succ_eq_map, List.map_cons, List.map_map]
    have h2 : ((fun i => (x :: t).getD i d) ∘ Nat.succ) = (fun i => t.getD i d) := rfl
    rw [h2, ih]
    simp

theorem argsort_perm_range (keys : List ℚ) :
    List.Perm (argsort keys) (List.range keys.length) :=
  List.perm_insertionSort _ _

theorem applyPerm_argsort_perm (d : ℚ) (keys : List ℚ) :
    List.Perm (applyPerm d (argsort keys) keys) keys := by
  unfold applyPerm
  have h1 := (argsort_perm_range keys).map (fun i => keys.getD i d)
  rwa [range_map_getD keys.length keys d rfl] at h1

theorem sorted_applyPerm_argsort (keys : List ℚ) :
    List.Sorted (· ≤ ·) (applyPerm 0 (argsort keys) keys) := by
  have h1 : List.Sorted (idxLe keys) (argsort keys) :=
    List.sorted_insertionSort (idxLe keys) (List.range keys.length)
  unfold applyPerm
  exact List.Pairwise.map _ (fun i j hij => by
    rcases hij with h | ⟨h, _⟩
    · exact le_of_lt h
    · exact le_of_eq h) h1

theorem argsort_of_sorted (keys : List ℚ) (h : List.Sorted (· ≤ ·) keys) :
    argsort keys = List.range keys.length := by
  apply List.Sorted.insertionSort_eq
  rw [List.Sorted, List.pairwise_iff_get]
  intro i j hij
  have hgi : (List.range keys.length).get i = i.val := by simp [List.get_eq_getElem]
  have hgj : (List.range keys.length).get j = j.val := by simp [List.get_eq_getElem]
  rw [hgi, hgj]
  have hi : i.val < keys.length := by
    have := i.isLt; simpa using this
  have hj : j.val < keys.length := by
    have := j.isLt; simpa using this
  have hdi : keys.getD i.val 0 = keys.get ⟨i.val, hi⟩ := by
    simp [List.getD_eq_getElem?_getD, List.getElem?_eq_getElem hi, List.get_eq_getElem]
  have hdj : keys.getD j.val 0 = keys.get ⟨j.val, hj⟩ := by
    simp [List.getD_eq_getElem?_getD, List.getElem?_eq_getElem hj, List.get_eq_getElem]
  have hle : keys.get ⟨i.val, hi⟩ ≤ keys.get ⟨j.val, hj⟩ := by
    apply h.rel_get_of_lt
    simpa using hij
  rcases lt_or_eq_of_le hle with hlt | heq
  · exact Or.inl (by rw [hdi, hdj]; exact hlt)
  · exact Or.inr ⟨by rw [hdi, hdj]; exact heq, le_of_lt (by simpa using hij)⟩

theorem applyPerm_argsort_of_sorted (d : α) (keys : List ℚ) (xs : List α)
    (hs : List.Sorted (· ≤ ·) keys) (hl : xs.length = keys.length) :
    applyPerm d (argsort keys) xs = xs := by
  rw [argsort_of_sorted keys hs]
  unfold applyPerm
  exact range_map_getD keys.length xs d hl

theorem lmin_cons_isSome (x : ℚ) (xs : List ℚ) : ∃ m, lmin (x :: xs) = some m := by
  unfold lmin
  cases lmin xs <;> simp

theorem lmax_cons_isSome (x : ℚ) (xs : List ℚ) : ∃ m, lmax (x :: xs) = some m := by
  unfold lmax
  cases lmax xs <;> simp

theorem lmin_le (l : List ℚ) (m : ℚ) (h : lmin l = some m) : ∀ x ∈ l, m ≤ x := by
  induction l generalizing m with
  | nil => simp [lmin] at h
  | cons a t ih =>
    intro x hx
    rw [lmin] at h
    rcases List.mem_cons.mp hx with rfl | hxt
    · cases ht : lmin t with
      | none => rw [ht] at h; simp at h; exact le_of_eq h.symm
      | some mt => rw [ht] at h; simp at h; rw [← h]; exact min_le_left _ _
    · cases ht : lmin t with
      | none =>
        cases t with
        | nil => simp at hxt
        | cons b tb => simp [lmin] at ht; cases h2 : lmin tb <;> rw [h2] at ht <;> simp at ht
      | some mt =>
        rw [ht] at h; simp at h
        have h3 := ih mt ht x hxt
        rw [← h]
        exact le_trans (min_le_right _ _) h3

theorem lmin_mem (l : List ℚ) (m : ℚ) (h : lmin l = some m) : m ∈ l := by
  induction l generalizing m with
  | nil => simp [lmin] at h
  | cons a t ih =>
    rw [lmin] at h
    cases ht : lmin t with
    | none => rw [ht] at h; simp at h; simp [h]
    | some mt =>
      rw [ht] at h; simp at h
      rcases min_choice a mt with hc | hc
    
      · rw [hc] at h; simp [h.symm]
      · rw [hc] at h; exact List.mem_cons_of_mem a (h ▸ ih mt ht)

theorem le_lmax (l : List ℚ) (m : ℚ) (h : lmax l = some m) : ∀ x ∈ l, x ≤ m := by
  induction l generalizing m with
  | nil => simp [lmax] at h
  | cons a t ih =>
    intro x hx
    rw [lmax] at h
    rcases List.mem_cons.mp hx with rfl | hxt
    · cases ht : lmax t with
      | none => rw [ht] at h; simp at h; exact le_of_eq h
      | some mt => rw [ht] at h; simp at h; rw [← h]; exact le_max_left _ _
    · cases ht : lmax t with
      | none =>
        cases t with
        | nil => simp at hxt
        | cons b tb => simp [lmax] at ht; cases h2 : lmax tb <;> rw [h2] at ht <;> simp at ht
      | some mt =>
        rw [ht] at h; simp at h
        have h3 := ih mt ht x hxt
        rw [← h]
        exact le_trans h3 (le_max_right _ _)

theorem lmax_mem (l : List ℚ) (m : ℚ) (h : lmax l = some m) : m ∈ l := by
  induction l generalizing m with
  | nil => simp [lmax] at h
  | cons a t ih =>
    rw [lmax] at h
    cases ht : lmax t with
    | none => rw [ht] at h; simp at h; simp [h]
    | some mt =>
      rw [ht] at h; simp at h
      rcases max_choice a mt with hc | hc
      · rw [hc] at h; simp [h.symm]
      · rw [hc] at h; exact List.mem_cons_of_mem a (h ▸ ih mt ht)

theorem pymod_nonneg (x n : ℚ) (hn : 0 < n) : 0 ≤ pymod x n := by
  unfold pymod
  have h1 : ((⌊x / n⌋ : ℤ) : ℚ) ≤ x / n := Int.floor_le _
  have h2 : n * ((⌊x / n⌋ : ℤ) : ℚ) ≤ n * (x / n) := by
    exact mul_le_mul_of_nonneg_left h1 (le_of_lt hn)
  rw [mul_div_cancel₀ x (ne_of_gt hn)] at h2
  linarith

theorem pymod_lt (x n : ℚ) (hn : 0 < n) : pymod x n < n := by
  unfold pymod
  have h1 : x / n < (⌊x / n⌋ : ℤ) + 1 := Int.lt_floor_add_one _
  have h2 : n * (x / n) < n * ((⌊x / n⌋ : ℤ) + 1) := by
    exact mul_lt_mul_of_pos_left h1 hn
  rw [mul_div_cancel₀ x (ne_of_gt hn)] at h2
  nlinarith

theorem remapLon_lb (l : ℚ) : -180 ≤ remapLon l := by
  unfold remapLon
  have := pymod_nonneg (l + 180) 360 (by norm_num)
  linarith

theorem remapLon_ub (l : ℚ) : remapLon l < 180 := by
  unfold remapLon
  have := pymod_lt (l + 180) 360 (by norm_num)
  linarith

theorem remapLon_low (l : ℚ) (h0 : 0 ≤ l) (h1 : l < 180) : remapLon l = l := by
  unfold remapLon pymod
  have hf : ⌊(l + 180) / 360⌋ = 0 := by
    rw [Int.floor_eq_zero_iff]
    constructor
    · positivity
    · rw [div_lt_one (by norm_num)]; linarith
  rw [hf]
  push_cast
  ring

theorem remapLon_high (l : ℚ) (h0 : 180 ≤ l) (h1 : l < 360) : remapLon l = l - 360 := by
  unfold remapLon pymod
  have hf : ⌊(l + 180) / 360⌋ = 1 := by
    rw [Int.floor_eq_iff]
    constructor
    · rw [le_div_iff₀ (by norm_num)]; push_cast; linarith
    · push_cast
      rw [div_lt_iff₀ (by norm_num)]; linarith
  rw [hf]
  push_cast
  ring

theorem remapLon_inj_on (a b : ℚ) (ha0 : 0 ≤ a) (ha1 : a < 360) (hb0 : 0 ≤ b) (hb1 : b < 360)
    (h : remapLon a = remapLon b) : a = b := by
  rcases lt_or_le a 180 with hac | hac <;> rcases lt_or_le b 180 with hbc | hbc
  · rwa [remapLon_low a ha0 hac, remapLon_low b hb0 hbc] at h
  · rw [remapLon_low a ha0 hac, remapLon_high b hbc hb1] at h; linarith
  · rw [remapLon_high a hac ha1, remapLon_low b hb0 hbc] at h; linarith
  · rw [remapLon_high a hac ha1, remapLon_high b hbc hb1] at h; linarith

/-! ## Structural lemmas about `streamline_coords` -/

theorem map_eq_self (l : List α) (f : α → α) (h : ∀ a ∈ l, f a = a) : l.map f = l := by
  induction l with
  | nil => rfl
  | cons x t ih =>
    rw [List.map_cons, h x (List.mem_cons_self x t), ih (fun a ha => h a (List.mem_cons_of_mem x ha))]

theorem argsort_length (keys : List ℚ) : (argsort keys).length = keys.length := by
  unfold argsort
  rw [List.length_insertionSort, List.length_range]

theorem firstOfMonth_idem (d : Date) : firstOfMonth (firstOfMonth d) = firstOfMonth d := rfl

theorem streamlineTime_lat (da : DataArray) : (streamlineTime da).lat = da.lat := by
  unfold streamlineTime
  rcases da.time with _ | ts
  · rfl
  · by_cases h : coordinate_is_monthly ts = true <;> simp [h]

theorem streamlineTime_lon (da : DataArray) : (streamlineTime da).lon = da.lon := by
  unfold streamlineTime
  rcases da.time with _ | ts
  · rfl
  · by_cases h : coordinate_is_monthly ts = true <;> simp [h]

theorem streamlineTime_data (da : DataArray) : (streamlineTime da).data = da.data := by
  unfold streamlineTime
  rcases da.time with _ | ts
  · rfl
  · by_cases h : coordinate_is_monthly ts = true <;> simp [h]

theorem streamlineTime_latRaw (da : DataArray) : (streamlineTime da).latRaw = da.latRaw := by
  unfold streamlineTime
  rcases da.time with _ | ts
  · rfl
  · by_cases h : coordinate_is_monthly ts = true <;> simp [h]

theorem streamlineTime_lonRaw (da : DataArray) : (streamlineTime da).lonRaw = da.lonRaw := by
  unfold streamlineTime
  rcases da.time with _ | ts
  · rfl
  · by_cases h : coordinate_is_monthly ts = true <;> simp [h]

theorem streamlineTime_of_time_eq (da da' : DataArray)
    (h : da'.time = (streamlineTime da).time) : streamlineTime da' = da' := by
  rcases hda : da.time with _ | ts
  · have h' : da'.time = none := by
      rw [h]; unfold streamlineTime; rw [hda]
      exact hda
    unfold streamlineTime
    rw [h']
  · by_cases hm : coordinate_is_monthly ts = true
    · have h' : da'.time = some (ts.map firstOfMonth) := by
        rw [h]; unfold streamlineTime; rw [hda]; simp [hm]
      unfold streamlineTime
      rw [h']
      by_cases hm2 : coordinate_is_monthly (ts.map firstOfMonth) = true
      · simp only [hm2, if_true]
        rw [List.map_map]
        have : (firstOfMonth ∘ firstOfMonth) = firstOfMonth := rfl
        rw [this, ← h']
      · simp [hm2]
    · have h' : da'.time = some ts := by
        rw [h]; unfold streamlineTime; rw [hda]; simp [hm]
        exact hda
      unfold streamlineTime
      rw [h']
      simp [hm]

theorem streamline_coords_time (da : DataArray) :
    (streamline_coords da).time = (streamlineTime da).time := by
  unfold streamline_coords sortbyLat sortbyLon
  dsimp only
  split
  · split <;> rfl
  · rfl

theorem streamline_coords_latRaw (da : DataArray) : (streamline_coords da).latRaw = false := by
  unfold streamline_coords sortbyLat sortbyLon
  dsimp only
  split
  · split <;> rfl
  · rfl

theorem streamline_coords_lonRaw (da : DataArray) : (streamline_coords da).lonRaw = false := by
  unfold streamline_coords sortbyLat sortbyLon
  dsimp only
  split
  · split <;> rfl
  · rfl

theorem lmin_eq_none (l : List ℚ) (h : lmin l = none) : l = [] := by
  cases l with
  | nil => rfl
  | cons x xs =>
    rcases lmin_cons_isSome x xs with ⟨m, hm⟩
    rw [h] at hm
    exact absurd hm (by simp)

theorem sortbyLat_lat (da : DataArray) : (sortbyLat da).lat = applyPerm 0 (argsort da.lat) da.lat := rfl

theorem sortbyLat_lon (da : DataArray) : (sortbyLat da).lon = da.lon := rfl

theorem sortbyLon_lon (da : DataArray) : (sortbyLon da).lon = applyPerm 0 (argsort da.lon) da.lon := rfl

theorem sortbyLon_lat (da : DataArray) : (sortbyLon da).lat = da.lat := rfl

theorem streamline_coords_lon_sorted (da : DataArray) :
    List.Sorted (· ≤ ·) (streamline_coords da).lon := by
  unfold streamline_coords
  dsimp only
  split
  · split
    · rw [sortbyLon_lon]
      exact sorted_applyPerm_argsort _
    · rw [sortbyLon_lon]
      exact sorted_applyPerm_argsort _
  · rw [sortbyLon_lon]
    exact sorted_applyPerm_argsort _

theorem streamline_coords_lon_bounds (da : DataArray) :
    ∀ l ∈ (streamline_coords da).lon, -180 ≤ l ∧ l ≤ 180 := by
  unfold streamline_coords
  dsimp only
  split
  next mn mx hmn hmx =>
    split
    next hcond =>
      intro l hl
      rw [sortbyLon_lon] at hl
      have hperm := applyPerm_argsort_perm 0 ((sortbyLon (sortbyLat { streamlineTime da with latRaw := false, lonRaw := false })).lon.map remapLon)
      have hl2 := hperm.mem_iff.mp hl
      rcases List.mem_map.mp hl2 with ⟨x, _, rfl⟩
      exact ⟨remapLon_lb x, le_of_lt (remapLon_ub x)⟩
    next hcond =>
      push_neg at hcond
      intro l hl
      constructor
      · calc (-180 : ℚ) ≤ mn := hcond.1
          _ ≤ l := lmin_le _ mn hmn l hl
      · calc l ≤ mx := le_lmax _ mx hmx l hl
          _ ≤ 180 := hcond.2
  next hnone =>
    intro l hl
    cases hcase : (sortbyLon (sortbyLat { streamlineTime da with latRaw := false, lonRaw := false })).lon with
    | nil => rw [hcase] at hl; exact absurd hl (List.not_mem_nil l)
    | cons x xs =>
      rcases lmin_cons_isSome x xs with ⟨m1, hm1⟩
      rcases lmax_cons_isSome x xs with ⟨m2, hm2⟩
      rw [hcase] at hnone
      exact (hnone m1 m2 hm1 hm2).elim

theorem sortbyLat_data (da : DataArray) :
    (sortbyLat da).data = da.data.map (fun sl => applyPerm [] (argsort da.lat) sl) := rfl

theorem sortbyLon_data (da : DataArray) :
    (sortbyLon da).data = da.data.map (fun sl => sl.map (fun row => applyPerm none (argsort da.lon) row)) := rfl

theorem sortbyLat_slice_len (da : DataArray) :
    ∀ sl ∈ (sortbyLat da).data, sl.length = (sortbyLat da).lat.length := by
  intro sl hsl
  rw [sortbyLat_data] at hsl
  rcases List.mem_map.mp hsl with ⟨sl0, _, rfl⟩
  rw [sortbyLat_lat, applyPerm_length, applyPerm_length]

theorem sortbyLon_slice_len (da : DataArray)
    (h : ∀ sl ∈ da.data, sl.length = da.lat.length) :
    ∀ sl ∈ (sortbyLon da).data, sl.length = (sortbyLon da).lat.length := by
  intro sl hsl
  rw [sortbyLon_data] at hsl
  rcases List.mem_map.mp hsl with ⟨sl0, hsl0, rfl⟩
  rw [sortbyLon_lat, List.length_map]
  exact h sl0 hsl0

theorem sortbyLon_row_len (da : DataArray) :
    ∀ sl ∈ (sortbyLon da).data, ∀ row ∈ sl, row.length = (sortbyLon da).lon.length := by
  intro sl hsl row hrow
  rw [sortbyLon_data] at hsl
  rcases List.mem_map.mp hsl with ⟨sl0, _, rfl⟩
  rcases List.mem_map.mp hrow with ⟨row0, _, rfl⟩
  rw [sortbyLon_lon, applyPerm_length, applyPerm_length]

theorem streamline_coords_lat_sorted (da : DataArray) :
    List.Sorted (· ≤ ·) (streamline_coords da).lat := by
  unfold streamline_coords
  dsimp only
  split
  · split
    · rw [sortbyLon_lat, sortbyLon_lat, sortbyLat_lat]
      exact sorted_applyPerm_argsort _
    · rw [sortbyLon_lat, sortbyLat_lat]
      exact sorted_applyPerm_argsort _
  · rw [sortbyLon_lat, sortbyLat_lat]
    exact sorted_applyPerm_argsort _

theorem streamline_coords_shape (da : DataArray) :
    ∀ sl ∈ (streamline_coords da).data,
      sl.length = (streamline_coords da).lat.length ∧
      ∀ row ∈ sl, row.length = (streamline_coords da).lon.length := by
  have base := fun (x : DataArray) => sortbyLon_slice_len (sortbyLat x) (sortbyLat_slice_len x)
  have baserow := fun (x : DataArray) => sortbyLon_row_len (sortbyLat x)
  unfold streamline_coords
  dsimp only
  split
  · split
    · intro sl hsl
      set da3 := sortbyLon (sortbyLat { streamlineTime da with latRaw := false, lonRaw := false }) with hda3
      set da4 := { da3 with lon := da3.lon.map remapLon } with hda4
      rw [sortbyLon_data] at hsl
      rcases List.mem_map.mp hsl with ⟨sl0, hsl0, rfl⟩
      constructor
      · rw [sortbyLon_lat, List.length_map]
        have h1 := (base { streamlineTime da with latRaw := false, lonRaw := false }) sl0 hsl0
        exact h1
      · intro row hrow
        rcases List.mem_map.mp hrow with ⟨row0, _, rfl⟩
        rw [sortbyLon_lon, applyPerm_length, applyPerm_length]
    · intro sl hsl
      exact ⟨(base _ sl hsl), (baserow _ sl hsl)⟩
  · intro sl hsl
    exact ⟨(base _ sl hsl), (baserow _ sl hsl)⟩

theorem sortbyLat_of_sorted (da : DataArray)
    (hs : List.Sorted (· ≤ ·) da.lat)
    (hshape : ∀ sl ∈ da.data, sl.length = da.lat.length) :
    sortbyLat da = da := by
  have h1 : applyPerm 0 (argsort da.lat) da.lat = da.lat :=
    applyPerm_argsort_of_sorted 0 da.lat da.lat hs rfl
  have h2 : da.data.map (fun sl => applyPerm [] (argsort da.lat) sl) = da.data :=
    map_eq_self _ _ (fun sl hsl => applyPerm_argsort_of_sorted [] da.lat sl hs (hshape sl hsl))
  show { da with lat := applyPerm 0 (argsort da.lat) da.lat,
                 data := da.data.map (fun sl => applyPerm [] (argsort da.lat) sl) } = da
  rw [h1, h2]

theorem sortbyLon_of_sorted (da : DataArray)
    (hs : List.Sorted (· ≤ ·) da.lon)
    (hshape : ∀ sl ∈ da.data, ∀ row ∈ sl, row.length = da.lon.length) :
    sortbyLon da = da := by
  have h1 : applyPerm 0 (argsort da.lon) da.lon = da.lon :=
    applyPerm_argsort_of_sorted 0 da.lon da.lon hs rfl
  have h2 : da.data.map (fun sl => sl.map (fun row => applyPerm none (argsort da.lon) row)) = da.data := by
    apply map_eq_self
    intro sl hsl
    apply map_eq_self
    intro row hrow
    exact applyPerm_argsort_of_sorted none da.lon row hs (hshape sl hsl row hrow)
  show { da with lon := applyPerm 0 (argsort da.lon) da.lon,
                 data := da.data.map (fun sl => sl.map (fun row => applyPerm none (argsort da.lon) row)) } = da
  rw [h1, h2]

theorem flags_false_update (x : DataArray) (h1 : x.latRaw = false) (h2 : x.lonRaw = false) :
    { x with latRaw := false, lonRaw := false } = x := by
  cases x
  simp only at h1 h2
  subst h1
  subst h2
  rfl

theorem streamline_coords_idem (da : DataArray) :
    streamline_coords (streamline_coords da) = streamline_coords da := by
  set out := streamline_coords da with hout
  have e1 : streamlineTime out = out := by
    rw [hout]
    exact streamlineTime_of_time_eq da _ (streamline_coords_time da)
  have e2 : { out with latRaw := false, lonRaw := false } = out := by
    apply flags_false_update
    · rw [hout]; exact streamline_coords_latRaw da
    · rw [hout]; exact streamline_coords_lonRaw da
  have e3 : sortbyLat out = out := by
    rw [hout]
    exact sortbyLat_of_sorted _ (streamline_coords_lat_sorted da)
      (fun sl hsl => (streamline_coords_shape da sl hsl).1)
  have e4 : sortbyLon out = out := by
    rw [hout]
    exact sortbyLon_of_sorted _ (streamline_coords_lon_sorted da)
      (fun sl hsl => (streamline_coords_shape da sl hsl).2)
  conv_lhs => unfold streamline_coords
  dsimp only
  rw [e1, e2, e3, e4]
  split
  next mn mx hmn hmx =>
    rw [if_neg]
    push_neg
    constructor
    · exact (streamline_coords_lon_bounds da mn (by rw [← hout] at *; exact lmin_mem _ mn hmn)).1
    · exact (streamline_coords_lon_bounds da mx (by rw [← hout] at *; exact lmax_mem _ mx hmx)).2
  next hnone => rfl

/-- Strict ascending order of a coordinate axis, as an executable check. -/
def sortedStrictB : List ℚ → Bool
  | [] => true
  | [_] => true
  | x :: y :: rest => decide (x < y) && sortedStrictB (y :: rest)

theorem sortedStrictB_pairwise : ∀ l : List ℚ, sortedStrictB l = true → List.Pairwise (· < ·) l
  | [], _ => List.Pairwise.nil
  | [x], _ => by simp
  | x :: y :: rest, h => by
    rw [sortedStrictB] at h
    simp only [Bool.and_eq_true, decide_eq_true_eq] at h
    have ih := sortedStrictB_pairwise (y :: rest) h.2
    constructor
    · intro z hz
      rcases List.mem_cons.mp hz with rfl | hz2
      · exact h.1
      · exact lt_trans h.1 (List.rel_of_pairwise_cons ih hz2)
    · exact ih

/-- The Data-Model invariants of a normalized field (spec section 3): monthly
time axes snapped to day 1, canonical axis names, strictly ascending latitude
and longitude with longitude in `[-180, 180)`, and data shaped consistently
with the axes. -/
def normalized (da : DataArray) : Bool :=
  (match da.time with
   | none => true
   | some ts => !(coordinate_is_monthly ts) || ts.all (fun d => d.day == 1)) &&
  (!da.latRaw && !da.lonRaw) &&
  sortedStrictB da.lat &&
  sortedStrictB da.lon &&
  da.lon.all (fun l => decide (-180 ≤ l) && decide (l < 180)) &&
  da.data.all (fun sl =>
    sl.length == da.lat.length && sl.all (fun row => row.length == da.lon.length))

theorem firstOfMonth_of_day_one (d : Date) (h : d.day = 1) : firstOfMonth d = d := by
  unfold firstOfMonth
  cases d
  simp only at h
  rw [h]

theorem streamline_coords_of_normalized (da : DataArray) (h : normalized da = true) :
    streamline_coords da = da := by
  unfold normalized at h
  simp only [Bool.and_eq_true, Bool.not_eq_true', decide_eq_true_eq, List.all_eq_true,
    Bool.or_eq_true, beq_iff_eq] at h
  obtain ⟨⟨⟨⟨⟨htime, hflags⟩, hlat⟩, hlon⟩, hbounds⟩, hshape⟩ := h
  have hlatS : List.Sorted (· ≤ ·) da.lat :=
    ((sortedStrictB_pairwise da.lat hlat).imp (fun hab => le_of_lt hab))
  have hlonS : List.Sorted (· ≤ ·) da.lon :=
    ((sortedStrictB_pairwise da.lon hlon).imp (fun hab => le_of_lt hab))
  have hshape1 : ∀ sl ∈ da.data, sl.length = da.lat.length := fun sl hsl => (hshape sl hsl).1
  have hshape2 : ∀ sl ∈ da.data, ∀ row ∈ sl, row.length = da.lon.length :=
    fun sl hsl row hrow => (hshape sl hsl).2 row hrow
  have st : streamlineTime da = da := by
    unfold streamlineTime
    rcases hda : da.time with _ | ts
    · rfl
    · rw [hda] at htime
      simp only [Bool.or_eq_true, Bool.not_eq_true', List.all_eq_true, beq_iff_eq] at htime
      by_cases hm : coordinate_is_monthly ts = true
      · simp only [hm, if_true]
        rcases htime with hfalse | hday
        · rw [hm] at hfalse; exact absurd hfalse (by simp)
        · rw [map_eq_self ts firstOfMonth (fun d hd => firstOfMonth_of_day_one d (hday d hd))]
          rw [← hda]
      · simp [hm]
  have flags : { da with latRaw := false, lonRaw := false } = da :=
    flags_false_update da hflags.1 hflags.2
  have slat : sortbyLat da = da := sortbyLat_of_sorted da hlatS hshape1
  have slon : sortbyLon da = da := sortbyLon_of_sorted da hlonS hshape2
  unfold streamline_coords
  dsimp only
  rw [st, flags, slat, slon]
  split
  next mn mx hmn hmx =>
    rw [if_neg]
    push_neg
    constructor
    · exact (hbounds mn (lmin_mem _ mn hmn)).1
    · exact le_of_lt (hbounds mx (lmax_mem _ mx hmx)).2
  next hnone => rfl

/-! ## Claims C2, C5, C6, C10: the coordinate normalizer -/

/-- C5: `streamline_coords` is idempotent - applying it twice yields the same
result as applying it once - and applying it to an already-normalized field
(per the data-model invariants) yields an identical field. -/
theorem claim_C5 :
    (∀ da : DataArray, streamline_coords (streamline_coords da) = streamline_coords da) ∧
    (∀ da : DataArray, normalized da = true → streamline_coords da = da) :=
  ⟨streamline_coords_idem, streamline_coords_of_normalized⟩

/-- A concrete normalized field: monthly first-of-month time axis, canonical
names, strictly ascending axes, longitudes inside `[-180, 180)`, consistent
shape. -/
def exNorm : DataArray :=
  ⟨some [⟨2000, 1, 1⟩, ⟨2000, 2, 1⟩], false, false, [0, 10], [-10, 0],
    [[[some 1, some 2], [some 3, none]], [[none, some 4], [some 5, some 6]]]⟩

theorem claim_C5_witness :
    normalized exNorm = true ∧ streamline_coords exNorm = exNorm :=
  ⟨by decide, claim_C5.2 exNorm (by decide)⟩

/-- C6 amended: `streamline_coords` leaves the input's latitude, longitude,
data and axis names untouched, and leaves the input entirely unchanged when
the time axis is absent or not monthly; but when the time axis is monthly the
line-103 in-place coordinate assignment mutates the input's time coordinate,
snapping every timestamp to the first of its month (`streamlineTime` is that
net effect on the argument object). -/
theorem claim_C6 : ∀ da : DataArray,
    (streamlineTime da).lat = da.lat ∧
    (streamlineTime da).lon = da.lon ∧
    (streamlineTime da).data = da.data ∧
    (streamlineTime da).latRaw = da.latRaw ∧
    (streamlineTime da).lonRaw = da.lonRaw ∧
    (da.time = none → streamlineTime da = da) ∧
    (∀ ts, da.time = some ts → coordinate_is_monthly ts = false → streamlineTime da = da) ∧
    (∀ ts, da.time = some ts → coordinate_is_monthly ts = true →
      (streamlineTime da).time = some (ts.map firstOfMonth)) := by
  intro da
  refine ⟨streamlineTime_lat da, streamlineTime_lon da, streamlineTime_data da,
    streamlineTime_latRaw da, streamlineTime_lonRaw da, ?_, ?_, ?_⟩
  · intro h
    unfold streamlineTime
    rw [h]
  · intro ts h hm
    unfold streamlineTime
    rw [h]
    simp [hm]
  · intro ts h hm
    unfold streamlineTime
    rw [h]
    simp [hm]

/-- A monthly field whose single timestamp is not the first of its month. -/
def exC6 : DataArray :=
  ⟨some [⟨2000, 5, 15⟩], false, false, [0], [0], [[[some 1]]]⟩

/-- C6 counterexample: on a monthly field, the in-place time-coordinate
assignment of `streamline_coords` (source line 103) leaves the caller's field
changed - its time coordinate is snapped - so the input does NOT stay
unchanged. -/
theorem claim_C6_counterexample :
    streamlineTime exC6 ≠ exC6 ∧ (streamlineTime exC6).time = some [⟨2000, 5, 1⟩] := by
  decide

theorem claim_C6_witness :
    (streamlineTime exC6).lon = exC6.lon ∧
    (streamlineTime exC6).time = some [⟨2000, 5, 1⟩] :=
  ⟨(claim_C6 exC6).2.1,
    (claim_C6 exC6).2.2.2.2.2.2.2 [⟨2000, 5, 15⟩] rfl (by decide)⟩

/-- C10: with fewer than two time stamps there are no consecutive time
differences, so the universally-quantified 28-31-day test holds vacuously and
`coordinate_is_monthly` returns `True`; consequently `streamline_coords`
snaps a single timestamp to the first day of its month. -/
theorem claim_C10 :
    (∀ ts : List Date, ts.length < 2 → coordinate_is_monthly ts = true) ∧
    (∀ (da : DataArray) (t : Date), da.time = some [t] →
      (streamline_coords da).time = some [firstOfMonth t]) := by
  constructor
  · intro ts h
    cases ts with
    | nil => rfl
    | cons a tl =>
      cases tl with
      | nil => rfl
      | cons b tl2 => exact absurd h (by simp)
  · intro da t hda
    rw [streamline_coords_time]
    unfold streamlineTime
    rw [hda]
    have hm : coordinate_is_monthly [t] = true := rfl
    simp [hm]

/-- A field with a single mid-month timestamp. -/
def exC10 : DataArray :=
  ⟨some [⟨2022, 7, 19⟩], false, false, [0], [0], [[[some 1]]]⟩

theorem claim_C10_witness :
    coordinate_is_monthly [(⟨2022, 7, 19⟩ : Date)] = true ∧
    (streamline_coords exC10).time = some [⟨2022, 7, 1⟩] :=
  ⟨claim_C10.1 [⟨2022, 7, 19⟩] (by decide), claim_C10.2 exC10 ⟨2022, 7, 19⟩ rfl⟩

/-- A field whose longitude axis contains the value 180: inside `[0, 360)`,
outside `[-180, 180)`, but inside the closed interval the code checks. -/
def exC2 : DataArray :=
  ⟨none, false, false, [0], [0, 180], [[[some 1, some 2]]]⟩

/-- C2 counterexample: `exC2` has a longitude value (180) outside
`[-180, 180)` and all longitudes in `[0, 360)`, yet `streamline_coords`
returns it unchanged - the remap condition `lon_min < -180 or lon_max > 180`
does not fire, so the returned field still has a longitude outside
`[-180, 180)`. -/
theorem claim_C2_counterexample :
    ((180 : ℚ) ∈ exC2.lon) ∧
    (∀ l ∈ exC2.lon, 0 ≤ l ∧ l < 360) ∧
    streamline_coords exC2 = exC2 ∧
    ¬(∀ l ∈ (streamline_coords exC2).lon, -180 ≤ l ∧ l < 180) := by
  refine ⟨by decide, by decide, by decide, ?_⟩
  intro hall
  have h := hall 180 (by decide)
  exact absurd h.2 (by norm_num)

/-- C2 amended: the remap fires only when some longitude lies outside the
CLOSED interval `[-180, 180]`; the returned field's longitudes always lie in
`[-180, 180]` and are sorted ascending; and for a field with pairwise-distinct
longitudes in `[0, 360)` at least one of which exceeds 180, the remap does
fire and the returned longitudes lie in `[-180, 180)` and are strictly
ascending. -/
theorem claim_C2 : ∀ da : DataArray,
    (∀ l ∈ (streamline_coords da).lon, -180 ≤ l ∧ l ≤ 180) ∧
    List.Sorted (· ≤ ·) (streamline_coords da).lon ∧
    ((∀ l ∈ da.lon, 0 ≤ l ∧ l < 360) → (∃ l0 ∈ da.lon, 180 < l0) → da.lon.Nodup →
      (∀ l ∈ (streamline_coords da).lon, -180 ≤ l ∧ l < 180) ∧
      List.Sorted (· < ·) (streamline_coords da).lon) := by
  intro da
  refine ⟨streamline_coords_lon_bounds da, streamline_coords_lon_sorted da, ?_⟩
  intro hrange hex hnodup
  have hsortedle := streamline_coords_lon_sorted da
  unfold streamline_coords at hsortedle ⊢
  dsimp only at hsortedle ⊢
  set da3 := sortbyLon (sortbyLat { streamlineTime da with latRaw := false, lonRaw := false }) with hda3
  have hlon2 : ({ streamlineTime da with latRaw := false, lonRaw := false } : DataArray).lon = da.lon :=
    streamlineTime_lon da
  have hperm3 : List.Perm da3.lon da.lon := by
    rw [hda3, sortbyLon_lon, sortbyLat_lon, hlon2]
    exact applyPerm_argsort_perm 0 da.lon
  rcases hex with ⟨l0, hl0mem, hl0⟩
  have hl0mem3 : l0 ∈ da3.lon := hperm3.mem_iff.mpr hl0mem
  split
  next mn mx hmn hmx =>
    have hmxge : 180 < mx := lt_of_lt_of_le hl0 (le_lmax _ mx hmx l0 hl0mem3)
    rw [if_pos (Or.inr hmxge)]
    rw [hmn, hmx] at hsortedle
    dsimp only at hsortedle
    rw [if_pos (Or.inr hmxge)] at hsortedle
    constructor
    · intro l hl
      rw [sortbyLon_lon] at hl
      have hp := applyPerm_argsort_perm 0 (da3.lon.map remapLon)
      rcases List.mem_map.mp (hp.mem_iff.mp hl) with ⟨x, _, rfl⟩
      exact ⟨remapLon_lb x, remapLon_ub x⟩
    · rw [sortbyLon_lon] at hsortedle ⊢
      have hpermres : List.Perm (applyPerm 0 (argsort (da3.lon.map remapLon)) (da3.lon.map remapLon)) (da.lon.map remapLon) :=
        (applyPerm_argsort_perm 0 (da3.lon.map remapLon)).trans (hperm3.map remapLon)
      have hnodupmap : (da.lon.map remapLon).Nodup := by
        apply List.Nodup.map_on
        · intro a ha b hb hab
          exact remapLon_inj_on a b (hrange a ha).1 (hrange a ha).2 (hrange b hb).1 (hrange b hb).2 hab
        · exact hnodup
      have hnodupres := hpermres.nodup_iff.mpr hnodupmap
      have hand := hsortedle.and hnodupres
      exact hand.imp (fun hab => lt_of_le_of_ne hab.1 hab.2)
  next hnone =>
    cases hcase : da3.lon with
    | nil => rw [hcase] at hl0mem3; exact absurd hl0mem3 (List.not_mem_nil l0)
    | cons x xs =>
      rcases lmin_cons_isSome x xs with ⟨m1, hm1⟩
      rcases lmax_cons_isSome x xs with ⟨m2, hm2⟩
      rw [hcase] at hnone
      exact (hnone m1 m2 hm1 hm2).elim

/-- A field with longitudes in `[0, 360)`, one exceeding 180. -/
def exC2w : DataArray :=
  ⟨none, false, false, [0], [10, 200], [[[some 1, some 2]]]⟩

theorem claim_C2_witness :
    (∀ l ∈ (streamline_coords exC2w).lon, -180 ≤ l ∧ l < 180) ∧
    List.Sorted (· < ·) (streamline_coords exC2w).lon :=
  (claim_C2 exC2w).2.2 (by decide) ⟨200, by decide, by norm_num⟩ (by decide)

/-! ## Claim C1: the annual resampler -/

theorem daysInMonth_pos (y m : Nat) : 0 < daysInMonth y m := by
  unfold daysInMonth
  split
  · split <;> norm_num
  · split <;> norm_num

theorem sum_map_div (l : List α) (f : α → ℚ) (d : ℚ) :
    (l.map (fun x => f x / d)).sum = (l.map f).sum / d := by
  induction l with
  | nil => simp
  | cons x t ih => simp [ih, add_div]

theorem yearEntries_year (s : Series) (y : Nat) (e : YM × Option ℚ)
    (h : e ∈ yearEntries s y) : e.1.1 = y := by
  have h2 := List.of_mem_filter h
  simpa using h2

theorem yearDaySum_pos (s : Series) (y : Nat) (h : yearEntries s y ≠ []) :
    0 < yearDaySum s y := by
  unfold yearDaySum
  apply List.sum_pos
  · intro x hx
    rcases List.mem_map.mp hx with ⟨e, _, rfl⟩
    have := daysInMonth_pos e.1.1 e.1.2
    unfold dimQ
    exact_mod_cast this
  · intro hc
    exact h (List.map_eq_nil_iff.mp hc)

theorem yearDen_eq_one (s : Series) (y : Nat) (h : yearEntries s y ≠ []) :
    yearDen s y = 1 := by
  unfold yearDen
  have hcong : (yearEntries s y).map (annualWeight s) =
      (yearEntries s y).map (fun e => dimQ e.1.1 e.1.2 / yearDaySum s y) := by
    apply List.map_congr_left
    intro e he
    unfold annualWeight
    rw [yearEntries_year s y e he]
  rw [hcong, sum_map_div]
  have hpos := yearDaySum_pos s y h
  exact div_self (ne_of_gt hpos)

/-- C1 amended: the per-year day-count weights are normalized over the months
PRESENT in the data for that year, so they sum to exactly 1 for every
non-empty year - in particular for a complete 12-month year - and the
`assert_allclose(denominator, 1)` completeness check passes whenever no year
of the span is entirely empty; a year one of whose PRESENT values is missing
propagates "no data" (`skipna=False`), but a year with months absent from the
time axis yields the day-weighted average of the months present, not
"no data". -/
theorem claim_C1 : ∀ s : Series,
    (∀ y, yearEntries s y ≠ [] → yearDen s y = 1) ∧
    (∀ y, (∃ e ∈ yearEntries s y, e.2 = none) → yearNum s y = none) ∧
    ((∀ y ∈ yearsSpan s, yearEntries s y ≠ []) →
      weighted_annual_average s = some ((yearsSpan s).map (fun y => (y, yearNum s y)))) := by
  intro s
  refine ⟨fun y => yearDen_eq_one s y, ?_, ?_⟩
  · intro y hex
    unfold yearNum
    rw [if_neg]
    intro hall
    rcases hex with ⟨e, he, hnone⟩
    have := List.all_eq_true.mp hall e he
    rw [hnone] at this
    exact absurd this (by simp)
  · intro hne
    unfold weighted_annual_average
    have hall : (yearsSpan s).all (fun y => allcloseOne (yearDen s y)) = true := by
      apply List.all_eq_true.mpr
      intro y hy
      rw [yearDen_eq_one s y (hne y hy)]
      with_unfolding_all rfl
    rw [if_pos hall]
    congr 1
    apply List.map_congr_left
    intro y hy
    rw [yearDen_eq_one s y (hne y hy)]
    congr 1
    cases yearNum s y with
    | none => rfl
    | some n => simp

/-- The months February through December of 1991, all with value 2: a year
missing the month of January from its time axis. -/
def exC1 : Series :=
  [((1991, 2), some 2), ((1991, 3), some 2), ((1991, 4), some 2),
   ((1991, 5), some 2), ((1991, 6), some 2), ((1991, 7), some 2),
   ((1991, 8), some 2), ((1991, 9), some 2), ((1991, 10), some 2),
   ((1991, 11), some 2), ((1991, 12), some 2)]

/-- C1 counterexample: the year 1991 is missing January, yet
`weighted_annual_average` passes its completeness check and returns the
partial day-weighted average of the eleven months present (`some 2`), not
"no data". -/
theorem claim_C1_counterexample :
    ((1991, 1) ∉ exC1.map Prod.fst) ∧
    weighted_annual_average exC1 = some [(1991, some 2)] := by
  constructor
  · decide
  · with_unfolding_all rfl

def exC1w : Series := [((1991, 1), some 3)]

def exC1n : Series := [((1991, 1), none), ((1991, 2), some 5)]

theorem claim_C1_witness :
    yearDen exC1w 1991 = 1 ∧
    yearNum exC1n 1991 = none ∧
    weighted_annual_average exC1w = some ((yearsSpan exC1w).map (fun y => (y, yearNum exC1w y))) :=
  ⟨(claim_C1 exC1w).1 1991 (by decide),
   (claim_C1 exC1n).2.1 1991 ⟨((1991, 1), none), by decide, rfl⟩,
   (claim_C1 exC1w).2.2 (by decide)⟩

/-! ## Claim C7: seasonal reduction and DJF relabelling -/

/-- C7 amended: every DJF quarter is relabelled (via the 31-day shift) to the
calendar year of its January/February members - year `y+1` for a quarter
starting in December of year `y` - and the hardcoded invalidation nulls
exactly the DJF entries of years 1950 and 2023; incomplete boundary windows
of other seasons are NOT invalidated (see the counterexample). -/
theorem claim_C7 :
    (∀ y m : Nat, 1 ≤ y → (m = 12 ∨ m = 1 ∨ m = 2) →
      shiftConvert (ymOf (qstartAbs (absMonth y m))) =
        ((if m = 12 then y + 1 else y), Season.DJF)) ∧
    (∀ (s : Series) (e : (Nat × Season) × Option ℚ), e ∈ seasonal_pipeline s →
      e.1.2 = Season.DJF → (e.1.1 = 1950 ∨ e.1.1 = 2023) → e.2 = none) := by
  constructor
  · intro y m hy hm
    rcases hm with rfl | rfl | rfl
    · have h1 : qstartAbs (absMonth y 12) = y * 12 + 11 := by
        unfold qstartAbs absMonth; omega
      have h2 : ymOf (y * 12 + 11) = (y, 12) := by
        unfold ymOf
        simp only [Prod.mk.injEq]
        omega
      rw [h1, h2]
      unfold shiftConvert addDays
      norm_num [daysInMonth, seasonOfMonth]
    · have h1 : qstartAbs (absMonth y 1) = (y - 1) * 12 + 11 := by
        unfold qstartAbs absMonth; omega
      have h2 : ymOf ((y - 1) * 12 + 11) = (y - 1, 12) := by
        unfold ymOf
        simp only [Prod.mk.injEq]
        omega
      rw [h1, h2]
      unfold shiftConvert addDays
      norm_num [daysInMonth, seasonOfMonth]
      omega
    · have h1 : qstartAbs (absMonth y 2) = (y - 1) * 12 + 11 := by
        unfold qstartAbs absMonth; omega
      have h2 : ymOf ((y - 1) * 12 + 11) = (y - 1, 12) := by
        unfold ymOf
        simp only [Prod.mk.injEq]
        omega
      rw [h1, h2]
      unfold shiftConvert addDays
      norm_num [daysInMonth, seasonOfMonth]
      omega
  · intro s e he hdjf hyr
    unfold seasonal_pipeline at he
    rcases List.mem_map.mp he with ⟨b, _, rfl⟩
    dsimp only at hdjf hyr ⊢
    rw [if_pos ⟨hdjf, hyr⟩]

/-- A series whose first entry is January 1950 and whose last is March 2023:
its final `QS-DEC` bin (the MAM 2023 quarter) contains only March. -/
def sC7 : Series := [((1950, 1), some 1), ((2023, 3), some 5)]

set_option maxRecDepth 100000 in
/-- C7 counterexample: the MAM 2023 entry sits at the very end of the data
span with an incomplete 3-month window (only March present), yet the pipeline
computes `some 5` from that single month instead of "no data"; only the
hardcoded DJF entries (e.g. DJF 1950) are invalidated. -/
theorem claim_C7_counterexample :
    sC7.map Prod.fst = [(1950, 1), (2023, 3)] ∧
    List.lookup (2023, Season.MAM) (seasonal_pipeline sC7) = some (some 5) ∧
    List.lookup (1950, Season.DJF) (seasonal_pipeline sC7) = some none := by
  refine ⟨by decide, ?_, ?_⟩ <;> with_unfolding_all rfl

def sC7w : Series := [((1950, 1), some 1)]

theorem claim_C7_witness :
    shiftConvert (ymOf (qstartAbs (absMonth 2022 12))) = (2023, Season.DJF) ∧
    ((1950, Season.DJF), (none : Option ℚ)).2 = none := by
  constructor
  · exact claim_C7.1 2022 12 (by norm_num) (Or.inl rfl)
  · have hp : seasonal_pipeline sC7w = [((1950, Season.DJF), none)] := by
      with_unfolding_all rfl
    exact claim_C7.2 sC7w ((1950, Season.DJF), none)
      (by rw [hp]; exact List.mem_singleton.mpr rfl) rfl (Or.inl rfl)

/-! ## Claim C9: climatology and anomalies -/

/-- C9: for each calendar month `m`, the climatology is the arithmetic mean of
the values observed in month `m` within the reference period (`none` when no
observation exists), and each anomaly equals the value minus the climatology
of its calendar month, being defined exactly when both operands are. -/
theorem claim_C9 : ∀ s : Series,
    (∀ m, (monthValsInRef s m = [] → climatology s m = none) ∧
      (monthValsInRef s m ≠ [] →
        climatology s m =
          some ((monthValsInRef s m).sum / ((monthValsInRef s m).length : ℚ)))) ∧
    (∀ (i : Nat) (e : YM × Option ℚ), s[i]? = some e →
      ∃ w : Option ℚ, (anomalies s)[i]? = some (e.1, w) ∧
        (w.isSome ↔ (e.2.isSome ∧ (climatology s e.1.2).isSome)) ∧
        (∀ a c : ℚ, e.2 = some a → climatology s e.1.2 = some c → w = some (a - c))) := by
  intro s
  constructor
  · intro m
    constructor
    · intro h
      unfold climatology
      rw [h]
      simp
    · intro h
      unfold climatology
      rw [if_neg]
      intro hlen
      exact h (List.length_eq_zero.mp hlen)
  · intro i e he
    unfold anomalies
    rw [List.getElem?_map, he, Option.map_some']
    refine ⟨_, rfl, ?_, ?_⟩
    · cases hv : e.2 with
      | none => simp
      | some a =>
        cases hc : climatology s e.1.2 with
        | none => simp
        | some c => simp
    · intro a c hv hc
      rw [hv, hc]

/-- Three Januaries: two inside the reference period (1995, 1996), one
outside (2022). -/
def exC9 : Series := [((1995, 1), some 3), ((1996, 1), some 5), ((2022, 1), some 10)]

theorem claim_C9_witness :
    climatology exC9 1 = some 4 ∧ (anomalies exC9)[2]? = some ((2022, 1), some 6) := by
  have hmv : monthValsInRef exC9 1 = [3, 5] := by decide
  have h1 := ((claim_C9 exC9).1 1).2 (by rw [hmv]; simp)
  have h1c : climatology exC9 1 = some 4 := by
    rw [h1, hmv]
    with_unfolding_all rfl
  refine ⟨h1c, ?_⟩
  rcases (claim_C9 exC9).2 2 ((2022, 1), some 10) (by decide) with ⟨w, hget, _, hval⟩
  rw [hval 10 4 rfl h1c] at hget
  rw [hget]
  with_unfolding_all rfl

/-! ## Claims C3, C4, C8: the spatial aggregator -/

/-- The weight grid `weighted_spatial_average` actually uses after region
selection. -/
noncomputable def wsaWeights (da : SpatialField) (r : Region) (mask : Option LandMask) : List (List ℝ) :=
  weightGrid (selField da r).lat (selField da r).lon (mask.map (fun mk => selMask mk r))

theorem wsa_eq (da : SpatialField) (r : Region) (mask : Option LandMask) :
    weighted_spatial_average da r mask =
      (selField da r).data.map (fun sl => xrWeightedMean (wsaWeights da r mask) sl) := rfl

theorem masked_num_eq (cells : List (ℝ × Option ℝ)) :
    (cells.map (fun c => c.1 * c.2.getD 0)).sum =
    (cells.filterMap (fun c => c.2.map (fun x => c.1 * x))).sum := by
  induction cells with
  | nil => simp
  | cons c t ih =>
    cases hc : c.2 with
    | none => simp [List.filterMap_cons, hc, ih]
    | some x => simp [List.filterMap_cons, hc, ih]

theorem masked_den_eq (cells : List (ℝ × Option ℝ)) :
    (cells.map (fun c => if c.2.isSome then c.1 else 0)).sum =
    (cells.filterMap (fun c => c.2.map (fun _ => c.1))).sum := by
  induction cells with
  | nil => simp
  | cons c t ih =>
    cases hc : c.2 with
    | none => simp [List.filterMap_cons, hc, ih]
    | some x => simp [List.filterMap_cons, hc, ih]

theorem xrWeightedMean_eq_masked (w : List (List ℝ)) (v : List (List (Option ℝ)))
    (h : maskedMeanDen w v ≠ 0) :
    xrWeightedMean w v = some (maskedMeanNum w v / maskedMeanDen w v) := by
  unfold xrWeightedMean
  dsimp only
  unfold maskedMeanNum maskedMeanDen at *
  rw [masked_num_eq, masked_den_eq]
  rw [if_neg h]

theorem xrWeightedMean_den_zero (w : List (List ℝ)) (v : List (List (Option ℝ)))
    (h : maskedMeanDen w v = 0) :
    xrWeightedMean w v = none := by
  unfold xrWeightedMean
  dsimp only
  unfold maskedMeanDen at h
  rw [masked_den_eq, h, if_pos rfl]

theorem cosWeight_zero : cosWeight 0 = 1 := by
  unfold cosWeight deg2rad
  norm_num

theorem cosWeight_ninety : cosWeight 90 = 0 := by
  unfold cosWeight deg2rad
  have h : ((90 : ℚ) : ℝ) * Real.pi / 180 = Real.pi / 2 := by
    push_cast
    ring
  rw [h, Real.cos_pi_div_two]

/-- C3: the spatial average at each remaining coordinate is the masked
weighted mean - `sum(value * weight) / sum(weight)` over exactly the cells
with a defined value (missing cells contribute to neither sum) - and in
particular a two-cell average of one present cell (weight `w ≠ 0`) and one
missing cell equals the present value exactly, whatever the missing cell's
nominal weight. -/
theorem claim_C3 :
    (∀ (da : SpatialField) (r : Region) (mask : Option LandMask) (i : Nat)
        (sl : List (List (Option ℝ))),
      (selField da r).data[i]? = some sl →
      maskedMeanDen (wsaWeights da r mask) sl ≠ 0 →
      (weighted_spatial_average da r mask)[i]? =
        some (some (maskedMeanNum (wsaWeights da r mask) sl /
          maskedMeanDen (wsaWeights da r mask) sl))) ∧
    (∀ (lt : ℚ) (v m1 m2 : ℝ), -90 ≤ lt → lt ≤ 90 → cosWeight lt * m1 ≠ 0 →
      weighted_spatial_average ⟨[lt], [0, 1], [[[some v, none]]]⟩ globalRegion
        (some ⟨[lt], [0, 1], [[some m1, some m2]]⟩) = [some v]) := by
  constructor
  · intro da r mask i sl hsl hden
    rw [wsa_eq, List.getElem?_map, hsl, Option.map_some']
    rw [xrWeightedMean_eq_masked _ _ hden]
  · intro lt v m1 m2 h1 h2 h3
    have hlat : inLat globalRegion lt = true := by
      unfold inLat globalRegion
      simp only [Bool.and_eq_true, decide_eq_true_eq]
      exact ⟨h1, h2⟩
    have hlon0 : inLon globalRegion 0 = true := by decide
    have hlon1 : inLon globalRegion 1 = true := by decide
    have hsel : selField ⟨[lt], [0, 1], [[[some v, none]]]⟩ globalRegion =
        ⟨[lt], [0, 1], [[[some v, none]]]⟩ := by
      simp [selField, filterAxis, hlat, hlon0, hlon1]
    have hmask : selMask ⟨[lt], [0, 1], [[some m1, some m2]]⟩ globalRegion =
        ⟨[lt], [0, 1], [[some m1, some m2]]⟩ := by
      simp [selMask, filterAxis, hlat, hlon0, hlon1]
    have hw : wsaWeights ⟨[lt], [0, 1], [[[some v, none]]]⟩ globalRegion
        (some ⟨[lt], [0, 1], [[some m1, some m2]]⟩) =
        [[cosWeight lt * m1, cosWeight lt * m2]] := by
      unfold wsaWeights weightGrid
      rw [hsel]
      simp only [Option.map_some']
      rw [hmask]
      simp
    rw [wsa_eq, hw, hsel]
    simp only [List.map]
    unfold xrWeightedMean
    dsimp only
    simp only [List.zip_cons_cons, List.zip_nil_right, List.zip_nil_left, List.flatMap,
      List.map, List.flatten, Option.getD_some, Option.getD_none, Option.isSome_some,
      Option.isSome_none, List.sum_cons, List.sum_nil, List.append_nil, if_true,
      Bool.false_eq_true, if_false, List.filterMap]
    norm_num
    refine ⟨⟨?_, ?_⟩, mul_div_cancel_left₀ v h3⟩
    · intro hc
      exact h3 (by rw [hc]; ring)
    · intro hm
      exact h3 (by rw [hm]; ring)

theorem claim_C3_witness :
    weighted_spatial_average ⟨[0], [0, 1], [[[some 2, none]]]⟩ globalRegion
      (some ⟨[0], [0, 1], [[some 1, some 5]]⟩) = [some 2] ∧
    (weighted_spatial_average ⟨[0], [0], [[[some (3 : ℝ)]]]⟩ globalRegion none)[0]? =
      some (some (maskedMeanNum (wsaWeights ⟨[0], [0], [[[some 3]]]⟩ globalRegion none) [[some 3]] /
        maskedMeanDen (wsaWeights ⟨[0], [0], [[[some 3]]]⟩ globalRegion none) [[some 3]])) := by
  constructor
  · exact claim_C3.2 0 2 1 5 (by norm_num) (by norm_num)
      (by rw [cosWeight_zero]; norm_num)
  · have hw : wsaWeights ⟨[0], [0], [[[some (3 : ℝ)]]]⟩ globalRegion none = [[cosWeight 0]] := by
      unfold wsaWeights weightGrid selField filterAxis
      norm_num [inLat, inLon, globalRegion]
    apply claim_C3.1
    · simp [selField, filterAxis, inLat, inLon, globalRegion]
    · rw [hw]
      unfold maskedMeanDen
      simp [cosWeight_zero]

/-- C8: whenever the sum of weights over the value-carrying cells at a
coordinate is exactly zero (e.g. an all-zero land mask), the spatial average
at that coordinate is "no data" (`xarray` replaces a zero `sum_of_weights`
with NaN before dividing), not a division by zero. -/
theorem claim_C8 : ∀ (da : SpatialField) (r : Region) (mask : Option LandMask)
    (i : Nat) (sl : List (List (Option ℝ))),
    (selField da r).data[i]? = some sl →
    maskedMeanDen (wsaWeights da r mask) sl = 0 →
    (weighted_spatial_average da r mask)[i]? = some none := by
  intro da r mask i sl hsl hden
  rw [wsa_eq, List.getElem?_map, hsl, Option.map_some']
  rw [xrWeightedMean_den_zero _ _ hden]

theorem claim_C8_witness :
    (weighted_spatial_average ⟨[0], [0], [[[some (3 : ℝ)]]]⟩ globalRegion
      (some ⟨[0], [0], [[some 0]]⟩))[0]? = some none := by
  have hw : wsaWeights ⟨[0], [0], [[[some (3 : ℝ)]]]⟩ globalRegion
      (some ⟨[0], [0], [[some 0]]⟩) = [[cosWeight 0 * 0]] := by
    unfold wsaWeights weightGrid selField selMask filterAxis
    norm_num [inLat, inLon, globalRegion]
  refine claim_C8 ⟨[0], [0], [[[some (3 : ℝ)]]]⟩ globalRegion
    (some ⟨[0], [0], [[some 0]]⟩) 0 [[some 3]] ?_ ?_
  · simp [selField, filterAxis, inLat, inLon, globalRegion]
  · rw [hw]
    unfold maskedMeanDen
    simp

/-- A field with two latitudes (0° and 90°) and values 0 and 3. -/
def exC4 : SpatialField := ⟨[0, 90], [0], [[[some 0], [some 3]]]⟩

/-- C4 counterexample: with no land mask the source weights cells by
`cos(deg2rad(lat))` - giving `[some 0]` on `exC4` (the 90° cell has weight
`cos(π/2) = 0`) - whereas a weight of "1 plus the cosine of the latitude"
would give `[some 1]`; the two disagree, so the claimed implicit weight is
wrong. -/
theorem claim_C4_counterexample :
    weighted_spatial_average exC4 globalRegion none = [some 0] ∧
    weighted_spatial_average_onePlusCos exC4 globalRegion = [some 1] := by
  have hsel : selField exC4 globalRegion = exC4 := by
    simp [selField, exC4, filterAxis, inLat, inLon, globalRegion]
  constructor
  · have hw : wsaWeights exC4 globalRegion none = [[cosWeight 0], [cosWeight 90]] := by
      unfold wsaWeights weightGrid
      rw [hsel]
      simp [exC4]
    rw [wsa_eq, hw, hsel]
    unfold exC4
    simp only [List.map]
    unfold xrWeightedMean
    dsimp only
    simp [cosWeight_zero, cosWeight_ninety]
  · have hw : onePlusCosGrid (selField exC4 globalRegion).lat (selField exC4 globalRegion).lon =
        [[1 + cosWeight 0], [1 + cosWeight 90]] := by
      rw [hsel]
      unfold onePlusCosGrid
      simp [exC4]
    unfold weighted_spatial_average_onePlusCos
    dsimp only
    rw [hw, hsel]
    unfold exC4
    simp only [List.map]
    unfold xrWeightedMean
    dsimp only
    simp [cosWeight_zero, cosWeight_ninety]
    norm_num

/-- C4 amended: with no explicit land mask, `weighted_spatial_average`
weights each cell by the cosine of its latitude converted to radians (NOT by
one plus that cosine, and not uniformly): the implicit weight grid is exactly
`cos(deg2rad(lat))` broadcast along longitude, and the result at each
coordinate is the corresponding masked weighted mean (no data when the
defined-cell weight sum is zero). -/
theorem claim_C4 :
    (∀ (da : SpatialField) (r : Region),
      wsaWeights da r none =
        (selField da r).lat.map (fun l => (selField da r).lon.map (fun _ => Real.cos (deg2rad l)))) ∧
    (∀ (da : SpatialField) (r : Region) (i : Nat) (sl : List (List (Option ℝ))),
      (selField da r).data[i]? = some sl →
      (weighted_spatial_average da r none)[i]? =
        some (if maskedMeanDen (wsaWeights da r none) sl = 0 then none
          else some (maskedMeanNum (wsaWeights da r none) sl /
            maskedMeanDen (wsaWeights da r none) sl))) := by
  constructor
  · intro da r
    rfl
  · intro da r i sl hsl
    rw [wsa_eq, List.getElem?_map, hsl, Option.map_some']
    by_cases hden : maskedMeanDen (wsaWeights da r none) sl = 0
    · rw [if_pos hden, xrWeightedMean_den_zero _ _ hden]
    · rw [if_neg hden, xrWeightedMean_eq_masked _ _ hden]

theorem claim_C4_witness :
    wsaWeights exC4 globalRegion none =
      (selField exC4 globalRegion).lat.map
        (fun l => (selField exC4 globalRegion).lon.map (fun _ => Real.cos (deg2rad l))) ∧
    (weighted_spatial_average exC4 globalRegion none)[0]? =
      some (if maskedMeanDen (wsaWeights exC4 globalRegion none) [[some 0], [some 3]] = 0 then none
        else some (maskedMeanNum (wsaWeights exC4 globalRegion none) [[some 0], [some 3]] /
          maskedMeanDen (wsaWeights exC4 globalRegion none) [[some 0], [some 3]])) :=
  ⟨claim_C4.1 exC4 globalRegion,
   claim_C4.2 exC4 globalRegion 0 [[some 0], [some 3]]
     (by simp [selField, exC4, filterAxis, inLat, inLon, globalRegion])⟩
